import Mathlib

/-!
Shallow embedding of the structural-metadata layer of the libjxl snapshot
(`lib/jxl/frame_header.h`, `lib/jxl/codec_in_out.h`, `lib/jxl/image_bundle.h`),
together with theorems settling the specification claims about it.

Machine integers are modelled as `Nat`; where a C++ computation can wrap, the
reduction modulo `2 ^ 64` is written explicitly.
-/

namespace JxlSpec

/-! ## YCbCrChromaSubsampling (frame_header.h)

`kHShift`/`kVShift` are the static lookup tables; `channel_mode_` is the
three-entry per-channel mode array (each entry written as a 2-bit field, hence
`Fin 4`), and `maxhs_`/`maxvs_` are the cached maxima recomputed by
`Recompute()`. -/

def kHShift : Fin 4 → Nat := ![0, 1, 1, 0]

def kVShift : Fin 4 → Nat := ![0, 1, 0, 1]

structure YCbCrChromaSubsampling where
  cm0 : Fin 4
  cm1 : Fin 4
  cm2 : Fin 4
  maxhs : Nat
  maxvs : Nat
  deriving DecidableEq, Repr

namespace YCbCrChromaSubsampling

def channelMode (s : YCbCrChromaSubsampling) : Fin 3 → Fin 4 :=
  ![s.cm0, s.cm1, s.cm2]

/-- `Recompute()`: recomputes the cached maximal shifts from the channel
modes (the source loops `maxhs_ = max(maxhs_, kHShift[channel_mode_[i]])`
starting from zero). -/
def recompute (s : YCbCrChromaSubsampling) : YCbCrChromaSubsampling :=
  { s with
    maxhs := max (max (max 0 (kHShift s.cm0)) (kHShift s.cm1)) (kHShift s.cm2)
    maxvs := max (max (max 0 (kVShift s.cm0)) (kVShift s.cm1)) (kVShift s.cm2) }

/-- The inner loop of `Set`: the first `i < 4` with
`1 << kHShift[i] == hsample[cjpeg] && 1 << kVShift[i] == vsample[cjpeg]`. -/
def findMode (h v : Nat) : Option (Fin 4) :=
  (List.finRange 4).find? (fun i => (2 ^ kHShift i == h) && (2 ^ kVShift i == v))

/-- `Set(hsample, vsample)` (JPEG channel order Y, Cb, Cr). The source maps
internal channel `c` to JPEG index `cjpeg = c < 2 ? c ^ 1 : c`, i.e. internal
channels 0, 1, 2 read JPEG entries 1, 0, 2. On a channel with no matching mode
it returns failure, leaving the modes already written for earlier channels in
place and skipping `Recompute()`. Returned pair: (status, resulting object). -/
def set (s : YCbCrChromaSubsampling) (hsample vsample : Fin 3 → Nat) :
    Bool × YCbCrChromaSubsampling :=
  match findMode (hsample 1) (vsample 1) with
  | none => (false, s)
  | some m0 =>
    let s1 := { s with cm0 := m0 }
    match findMode (hsample 0) (vsample 0) with
    | none => (false, s1)
    | some m1 =>
      let s2 := { s1 with cm1 := m1 }
      match findMode (hsample 2) (vsample 2) with
      | none => (false, s2)
      | some m2 => (true, ({ s2 with cm2 := m2 }).recompute)

def Is444 (s : YCbCrChromaSubsampling) : Bool :=
  (s.cm0 == s.cm1) && (s.cm2 == s.cm1)

def Is420 (s : YCbCrChromaSubsampling) : Bool :=
  (s.cm0 == 1) && (s.cm1 == 0) && (s.cm2 == 1)

def HShift (s : YCbCrChromaSubsampling) (c : Fin 3) : Nat :=
  s.maxhs - kHShift (s.channelMode c)

def VShift (s : YCbCrChromaSubsampling) (c : Fin 3) : Nat :=
  s.maxvs - kVShift (s.channelMode c)

end YCbCrChromaSubsampling

/-- The all-zero state (all channel modes 0, cached shifts 0), the state a
default-constructed descriptor is in after visiting all-default fields. -/
def YCbCrChromaSubsampling.zero : YCbCrChromaSubsampling :=
  ⟨0, 0, 0, 0, 0⟩

/-! ## FrameHeader (frame_header.h) -/

inductive FrameType where
  | kRegularFrame
  | kDCFrame
  | kReferenceOnly
  deriving DecidableEq, Repr

inductive ColorTransform where
  | kXYB
  | kNone
  | kYCbCr
  deriving DecidableEq, Repr

/-- `AnimationFrame`: only the fields the claims depend on. -/
structure AnimationFrame where
  duration : Nat
  timecode : Nat

structure FrameSize where
  xsize : Nat
  ysize : Nat

structure FrameOrigin where
  x0 : Int
  y0 : Int
  deriving DecidableEq, Repr

/-- Modelled from the spec: `ImageMetadata` (image_metadata.h) and the preview
header are outside the provided sources; the spec says frame dimensions default
to "the metadata's default image size (or the preview size when the header is a
preview header)", so the metadata is modelled as carrying those four sizes. -/
structure ImageMetadata where
  xsize : Nat
  ysize : Nat
  preview_xsize : Nat
  preview_ysize : Nat

/-- `FrameHeader`: the fields the claims depend on, with the source's names.
`nonserialized_image_metadata` is a possibly-null pointer, hence `Option`. -/
structure FrameHeader where
  frame_type : FrameType
  frame_size : FrameSize
  animation_frame : AnimationFrame
  is_last : Bool
  save_as_reference : Nat
  dc_level : Nat
  nonserialized_image_metadata : Option ImageMetadata
  nonserialized_is_preview : Bool

namespace FrameHeader

/-- `CanBeReferenced()`:
`!is_last && frame_type != kDCFrame && (duration == 0 || save_as_reference != 0)`. -/
def CanBeReferenced (h : FrameHeader) : Bool :=
  !h.is_last && (h.frame_type != FrameType.kDCFrame) &&
    (h.animation_frame.duration == 0 || h.save_as_reference != 0)

/-- `default_xsize()`: 0 when the metadata pointer is null, the preview width
when this is a preview header, the metadata width otherwise. -/
def default_xsize (h : FrameHeader) : Nat :=
  match h.nonserialized_image_metadata with
  | none => 0
  | some m => if h.nonserialized_is_preview then m.preview_xsize else m.xsize

/-- `default_ysize()`, symmetric to `default_xsize()`. -/
def default_ysize (h : FrameHeader) : Nat :=
  match h.nonserialized_image_metadata with
  | none => 0
  | some m => if h.nonserialized_is_preview then m.preview_ysize else m.ysize

end FrameHeader

/-- Modelled from the spec: `DivCeil` (common.h) is outside the provided
sources; the spec says the dimensions are "divided by `8^dc_level`, rounding
up", and the call site computes `DivCeil(xsize, 1 << (3 * dc_level))` with
`(a + b - 1) / b` over `size_t`, so the addition is reduced modulo `2 ^ 64`. -/
def divCeilU64 (a b : Nat) : Nat :=
  ((a + b - 1) % 2 ^ 64) / b

/-- The `xsize`/`ysize` pair computed by `ToFrameDimensions()` (the values
handed to `FrameDimensions::Set`): the explicit `frame_size` component when
nonzero, else the default size; divided (rounding up) by `8^dc_level` when
`dc_level != 0`. -/
def FrameHeader.toFrameDimensionsSize (h : FrameHeader) : Nat × Nat :=
  let xsize := h.default_xsize
  let ysize := h.default_ysize
  let xsize := if h.frame_size.xsize ≠ 0 then h.frame_size.xsize else xsize
  let ysize := if h.frame_size.ysize ≠ 0 then h.frame_size.ysize else ysize
  if h.dc_level ≠ 0 then
    (divCeilU64 xsize (2 ^ (3 * h.dc_level)), divCeilU64 ysize (2 ^ (3 * h.dc_level)))
  else
    (xsize, ysize)

/-- Ceiling division as the spec words it ("divided ... with rounding up"):
the quotient, plus one when the division has a remainder. -/
def specCeilDiv (x d : Nat) : Nat :=
  x / d + if x % d = 0 then 0 else 1

/-! ## CodecInOut decode-time limits (codec_in_out.h) -/

/-- The three decode-time bounds. In the source `dec_max_xsize` and
`dec_max_ysize` are `uint32_t` and `dec_max_pixels` is `uint64_t`. -/
structure DecLimits where
  dec_max_xsize : Nat
  dec_max_ysize : Nat
  dec_max_pixels : Nat

/-- The member initializers: `0xFFFFFFFFu`, `0xFFFFFFFFu`, `~0ull`. -/
def defaultLimits : DecLimits :=
  ⟨2 ^ 32 - 1, 2 ^ 32 - 1, 2 ^ 64 - 1⟩

/-- `CodecInOut::VerifyDimensions(xs, ys)`. The pixel count is computed as
`uint64_t(xs) * ys`, hence the explicit reduction modulo `2 ^ 64`. -/
def VerifyDimensions (L : DecLimits) (xs ys : Nat) : Except String Unit :=
  if xs = 0 ∨ ys = 0 then .error "Empty image."
  else if L.dec_max_xsize < xs then .error "Image too wide."
  else if L.dec_max_ysize < ys then .error "Image too tall."
  else if L.dec_max_pixels < xs * ys % 2 ^ 64 then .error "Image too big."
  else .ok ()

/-! ## BlendMode (frame_header.h) and the per-pixel blend formulas -/

inductive BlendMode where
  | kReplace
  | kAdd
  | kBlend
  | kAlphaWeightedAdd
  | kMul
  deriving DecidableEq, Repr

/-- Modelled from the spec: the per-pixel compositing formulas (the blending
is executed by an external renderer; the formulas are given by the `BlendMode`
documentation in frame_header.h and the spec's §4.4 table). Arguments: the
blend mode, whether the sample belongs to the alpha channel used as blend
source, whether that alpha is associated (premultiplied), the old and new
samples, the old and new alpha samples, and the blended output alpha used as
divisor in the unassociated case. Samples are exact rationals (the nominal
0..1 range). -/
def blendSample (mode : BlendMode) (isAlphaChannel alphaAssociated : Bool)
    (old new oldAlpha newAlpha alphaOut : ℚ) : ℚ :=
  match mode with
  | .kReplace => new
  | .kAdd => old + new
  | .kBlend =>
    if isAlphaChannel then old + new * (1 - old)
    else if alphaAssociated then (1 - newAlpha) * old + new
    else ((1 - newAlpha) * old * oldAlpha + newAlpha * new) / alphaOut
  | .kAlphaWeightedAdd =>
    if isAlphaChannel then old + new * (1 - old) else old + newAlpha * new
  | .kMul => old * new

/-! ## The name-string field (frame_header.h, `VisitNameString`) -/

/-- Modelled from the spec: §4.1's variable-width integer codec selects among
configured variants — a constant value, a raw `n`-bit value, or an `n`-bit
value plus a fixed offset (the `Val`/`Bits`/`BitsOffset` encodings of
fields.h, which is outside the provided sources). -/
inductive U32Distr where
  | val (c : Nat)
  | bits (n : Nat)
  | bitsOffset (n off : Nat)
  deriving DecidableEq, Repr

/-- The set of values a variant can represent. -/
def U32Distr.canRepresent : U32Distr → Nat → Bool
  | .val c, v => v == c
  | .bits n, v => decide (v < 2 ^ n)
  | .bitsOffset n off, v => decide (off ≤ v ∧ v < off + 2 ^ n)

/-- The variant set used for the name-length field in `VisitNameString`:
`U32(Val(0), Bits(4), BitsOffset(5, 16), BitsOffset(10, 48), ...)`. -/
def nameLengthVariants : List U32Distr :=
  [.val 0, .bits 4, .bitsOffset 5 16, .bitsOffset 10 48]

/-- The character loop of `VisitNameString` in the decode direction: reads
exactly `n` raw 8-bit characters from the byte stream, returning the decoded
characters and the remaining stream (`none` when the stream runs out). -/
def readNameChars : Nat → List Nat → Option (List Nat × List Nat)
  | 0, s => some ([], s)
  | _ + 1, [] => none
  | n + 1, b :: s =>
    match readNameChars n s with
    | none => none
    | some (cs, r) => some (b :: cs, r)

/-! ## ImageBundle (image_bundle.h) -/

/-- Modelled from the spec: the planar color container (image.h, outside the
provided sources); only its dimensions are consulted by the embedded
operations, and `CopyImage` deep-copies it, i.e. is the identity on values. -/
structure Image3F where
  xsize : Nat
  ysize : Nat
  deriving DecidableEq, Repr

/-- Modelled from the spec: a single extra-channel raster (image.h). -/
structure ImageU where
  xsize : Nat
  ysize : Nat
  deriving DecidableEq, Repr

/-- Modelled from the spec: the transcoded (JPEG) payload container (brunsli,
outside the provided sources); the size resolution reads its declared
`width`/`height`. -/
structure JPEGData where
  width : Nat
  height : Nat
  deriving DecidableEq, Repr

/-- Modelled from the spec: the color-encoding value is opaque to the claims
(it is only value-copied and compared); represented by a tag. -/
structure ColorEncoding where
  tag : Nat
  deriving DecidableEq, Repr

/-- `ImageBundle` with the source's fields (private members without the
trailing underscore); `jpeg_data` is a possibly-null owning pointer, hence
`Option`. -/
structure ImageBundle where
  metadata : Option ImageMetadata
  color : Image3F
  c_current : ColorEncoding
  extra_channels : List ImageU
  jpeg_data : Option JPEGData
  color_transform : ColorTransform
  chroma_subsampling : YCbCrChromaSubsampling
  origin : FrameOrigin
  duration : Nat
  use_for_next_frame : Bool
  blend : Bool
  decoded_bytes : Nat

namespace ImageBundle

/-- The `ImageBundle(const ImageMetadata*)` constructor together with the
in-class member initializers: everything empty/default except the metadata
back-reference. -/
def mkWithMetadata (m : Option ImageMetadata) : ImageBundle :=
  ⟨m, ⟨0, 0⟩, ⟨0⟩, [], none, ColorTransform.kNone,
    YCbCrChromaSubsampling.zero, ⟨0, 0⟩, 0, false, false, 0⟩

/-- `CopyImage` on the color planes (deep copy; identity on values). -/
def copyImage3F (img : Image3F) : Image3F := img

/-- `CopyImage` on an extra-channel raster (deep copy; identity on values). -/
def copyImageU (img : ImageU) : ImageU := img

/-- `Copy()`: constructs a fresh bundle from the metadata pointer, then
copies the color image, current encoding, extra channels, transcoded payload
(cloned when present), color transform and chroma subsampling. -/
def Copy (b : ImageBundle) : ImageBundle :=
  let copy := mkWithMetadata b.metadata
  let copy := { copy with color := copyImage3F b.color }
  let copy := { copy with c_current := b.c_current }
  let copy := { copy with extra_channels := b.extra_channels.map copyImageU }
  let copy :=
    { copy with
      jpeg_data :=
        match b.jpeg_data with
        | some j => some j
        | none => none }
  { copy with
    color_transform := b.color_transform
    chroma_subsampling := b.chroma_subsampling }

/-- `xsize()`: the transcoded payload's declared width when present, else the
color image's width when nonzero, else the first extra channel's width when
any extra channel exists, else 0. -/
def xsize (b : ImageBundle) : Nat :=
  match b.jpeg_data with
  | some j => j.width
  | none =>
    if b.color.xsize ≠ 0 then b.color.xsize
    else
      match b.extra_channels with
      | [] => 0
      | e :: _ => e.xsize

/-- `ysize()`, symmetric to `xsize()`. -/
def ysize (b : ImageBundle) : Nat :=
  match b.jpeg_data with
  | some j => j.height
  | none =>
    if b.color.ysize ≠ 0 then b.color.ysize
    else
      match b.extra_channels with
      | [] => 0
      | e :: _ => e.ysize

end ImageBundle

/-- A second definition of the size resolution, written from the spec's
words ("if a transcoded payload is present, its declared dimensions win; else
the planar color image's dimensions; else the first extra channel's
dimensions; else zero"), to be compared with the source-embedded accessors. -/
def specResolvedSize (b : ImageBundle) : Nat × Nat :=
  match b.jpeg_data with
  | some j => (j.width, j.height)
  | none =>
    ((if b.color.xsize ≠ 0 then b.color.xsize
      else ((b.extra_channels.head?.map ImageU.xsize).getD 0)),
     (if b.color.ysize ≠ 0 then b.color.ysize
      else ((b.extra_channels.head?.map ImageU.ysize).getD 0)))

/-- A concrete bundle exercising the extra-channel fallback of the size
resolution: no transcoded payload, empty color, one 9×4 extra channel. -/
def sampleBundle : ImageBundle :=
  ImageBundle.mkWithMetadata none
    |> fun b => { b with extra_channels := [⟨9, 4⟩] }

/-! ## CodecInOut.TransformTo (codec_in_out.h) -/

/-- The holder of the fields `CodecInOut::TransformTo` consults: whether the
metadata declares a preview (`metadata.m.m2.have_preview`), the preview
bundle, and the ordered frame sequence. The bundle type is a parameter, and
the per-bundle `ImageBundle::TransformTo` (whose body is outside the provided
sources) is passed in as a function `tf` returning either the transformed
bundle or a failure. -/
structure CodecInOut (B : Type) where
  have_preview : Bool
  preview_frame : B
  frames : List B

/-- The frame loop of `CodecInOut::TransformTo`: transforms each frame in
order, mutating in place, and stops at the first failure; returns the status
and the final frame sequence (frames from the failing one onwards keep their
old values). -/
def transformFramesList {B : Type} (tf : B → Except String B) :
    List B → Except String Unit × List B
  | [] => (.ok (), [])
  | b :: bs =>
    match tf b with
    | .error e => (.error e, b :: bs)
    | .ok b' =>
      let r := transformFramesList tf bs
      (r.1, b' :: r.2)

/-- `CodecInOut::TransformTo`: transforms the preview first when declared
(returning its failure immediately, with no frame touched), then the frames
in sequence order. -/
def CodecInOut.TransformTo {B : Type} (tf : B → Except String B)
    (c : CodecInOut B) : Except String Unit × CodecInOut B :=
  if c.have_preview then
    match tf c.preview_frame with
    | .error e => (.error e, c)
    | .ok p =>
      let r := transformFramesList tf c.frames
      (r.1, { c with preview_frame := p, frames := r.2 })
  else
    let r := transformFramesList tf c.frames
    (r.1, { c with frames := r.2 })

/-- Whether a status is a success. -/
def statusOk {α : Type} : Except String α → Bool
  | .ok _ => true
  | .error _ => false

/-- The value a successful transform produces (the bundle itself if the
transform fails; used only to describe states of successful prefixes). -/
def applyOk {B : Type} (tf : B → Except String B) (b : B) : B :=
  match tf b with
  | .ok b' => b'
  | .error _ => b

/-- A concrete transform for instantiating the `TransformTo` theorem: fails
on 0, increments otherwise. -/
def sampleTf : Nat → Except String Nat :=
  fun n => if n = 0 then .error "fail" else .ok (n + 1)

/-- A concrete aggregate with a declared preview and frames [1, 0, 3]: the
second frame fails under `sampleTf`. -/
def sampleCodec : CodecInOut Nat :=
  ⟨true, 5, [1, 0, 3]⟩

/-- A concrete frame header used to instantiate the dimension theorem: a DC
frame with `dc_level = 1`, no explicit frame size, over a 100×60 image. -/
def sampleDcHeader : FrameHeader :=
  ⟨FrameType.kDCFrame, ⟨0, 0⟩, ⟨0, 0⟩, false, 0, 1, some ⟨100, 60, 7, 5⟩, false⟩

/-- Helper: under no-overflow conditions the `size_t` computation
`(x + d - 1) / d` of `DivCeil` is exactly division rounding up. -/
theorem divCeilU64_eq_specCeilDiv (x d : Nat) (hd : 0 < d)
    (hle : x + d ≤ 2 ^ 64) : divCeilU64 x d = specCeilDiv x d := by
  have h1 : x + d - 1 < 2 ^ 64 := by omega
  rw [divCeilU64, specCeilDiv, Nat.mod_eq_of_lt h1]
  rcases Nat.eq_zero_or_pos x with hx0 | hx1
  · subst hx0
    simp [Nat.div_eq_of_lt (show d - 1 < d by omega)]
  · obtain ⟨n, rfl⟩ : ∃ n, x = n + 1 := ⟨x - 1, by omega⟩
    have hs : n + 1 + d - 1 = n + d := by omega
    rw [hs, Nat.add_div_right _ hd, Nat.succ_div]
    by_cases hdvd : d ∣ n + 1
    · rw [if_pos hdvd, if_pos (Nat.dvd_iff_mod_eq_zero.mp hdvd)]
    · rw [if_neg hdvd, if_neg (fun hmod => hdvd (Nat.dvd_iff_mod_eq_zero.mpr hmod))]

/-- C1: calling `Set` with JPEG-order sampling-factor arrays {2,1,1}/{2,1,1}
(4:2:0) succeeds, and the resulting state is genuine 4:2:0 by the struct's own
`HShift`/`VShift` accessors (chroma channels 0 and 2 downsampled by one shift
in both directions, luma channel 1 at full resolution) — yet `Is420()` returns
`false` on it (it tests for raw mode pattern (1,0,2) = 1,0,1, which under the
`Set`/`HShift` convention is the inverse pattern), while `Is444()` returns
`false` as expected. This exhibits the divergence between the claim (Is420 =
true) and the code at the claimed input. -/
theorem c1_set420_is420_false (s : YCbCrChromaSubsampling) :
    YCbCrChromaSubsampling.set s ![2, 1, 1] ![2, 1, 1] =
      (true, ⟨0, 1, 0, 1, 1⟩) ∧
    YCbCrChromaSubsampling.Is420 ⟨0, 1, 0, 1, 1⟩ = false ∧
    YCbCrChromaSubsampling.Is444 ⟨0, 1, 0, 1, 1⟩ = false ∧
    (YCbCrChromaSubsampling.HShift ⟨0, 1, 0, 1, 1⟩ 0 = 1 ∧
     YCbCrChromaSubsampling.HShift ⟨0, 1, 0, 1, 1⟩ 1 = 0 ∧
     YCbCrChromaSubsampling.HShift ⟨0, 1, 0, 1, 1⟩ 2 = 1) ∧
    (YCbCrChromaSubsampling.VShift ⟨0, 1, 0, 1, 1⟩ 0 = 1 ∧
     YCbCrChromaSubsampling.VShift ⟨0, 1, 0, 1, 1⟩ 1 = 0 ∧
     YCbCrChromaSubsampling.VShift ⟨0, 1, 0, 1, 1⟩ 2 = 1) := by
  refine ⟨rfl, rfl, rfl, ⟨rfl, rfl, rfl⟩, ⟨rfl, rfl, rfl⟩⟩

/-- C9: `Set` is not atomic on failure. Starting from the all-zero state and
calling `Set` with JPEG-order arrays {2,2,3}/{2,2,3} (third channel invalid),
`Set` fails, but the modes of the two earlier channels have already been
overwritten (both set to 1, where they were 0), the failing channel's mode is
untouched, and the cached maxima `maxhs_`/`maxvs_` still hold their stale
value 0 although `Recompute()` on the partially updated modes would yield 1. -/
theorem c9_set_not_atomic :
    YCbCrChromaSubsampling.set YCbCrChromaSubsampling.zero ![2, 2, 3] ![2, 2, 3] =
      (false, ⟨1, 1, 0, 0, 0⟩) ∧
    YCbCrChromaSubsampling.zero.cm0 = 0 ∧
    (YCbCrChromaSubsampling.recompute ⟨1, 1, 0, 0, 0⟩).maxhs = 1 ∧
    (YCbCrChromaSubsampling.recompute ⟨1, 1, 0, 0, 0⟩).maxvs = 1 := by
  refine ⟨rfl, rfl, rfl, rfl⟩

/-- C2: `CanBeReferenced()` returns true if and only if the frame is not the
last frame, its type is not DC frame, and either its animation duration is
zero or its `save_as_reference` slot is nonzero. -/
theorem c2_canBeReferenced_iff (h : FrameHeader) :
    h.CanBeReferenced = true ↔
      (h.is_last = false ∧ h.frame_type ≠ FrameType.kDCFrame ∧
        (h.animation_frame.duration = 0 ∨ h.save_as_reference ≠ 0)) := by
  simp [FrameHeader.CanBeReferenced, Bool.and_eq_true, Bool.or_eq_true,
    Bool.not_eq_true', bne_iff_ne, beq_iff_eq, and_assoc]

/-- C3: `VerifyDimensions(x, y)` succeeds exactly when both dimensions are
nonzero, neither exceeds its configured maximum, and the product does not
exceed the maximum pixel count (the width/height maxima are 32-bit, so the
64-bit pixel product never wraps at the point it is checked); in particular
`(0,100)`, `(100,0)`, `(dec_max_xsize+1,100)` and a pair whose product exceeds
a configured `dec_max_pixels` each fail, while `(1,1)` succeeds under the
default limits. -/
theorem c3_verifyDimensions :
    (∀ (L : DecLimits) (xs ys : Nat),
        L.dec_max_xsize < 2 ^ 32 → L.dec_max_ysize < 2 ^ 32 →
        (VerifyDimensions L xs ys = .ok () ↔
          xs ≠ 0 ∧ ys ≠ 0 ∧ xs ≤ L.dec_max_xsize ∧ ys ≤ L.dec_max_ysize ∧
            xs * ys ≤ L.dec_max_pixels)) ∧
    VerifyDimensions defaultLimits 0 100 = .error "Empty image." ∧
    VerifyDimensions defaultLimits 100 0 = .error "Empty image." ∧
    VerifyDimensions defaultLimits (defaultLimits.dec_max_xsize + 1) 100 =
      .error "Image too wide." ∧
    VerifyDimensions ⟨2 ^ 32 - 1, 2 ^ 32 - 1, 10⟩ 4 3 = .error "Image too big." ∧
    VerifyDimensions defaultLimits 1 1 = .ok () := by
  refine ⟨?_, rfl, rfl, rfl, rfl, rfl⟩
  intro L xs ys hx hy
  have hmul : xs ≤ L.dec_max_xsize → ys ≤ L.dec_max_ysize → xs * ys < 2 ^ 64 := by
    intro hxs hys
    calc xs * ys ≤ (2 ^ 32 - 1) * (2 ^ 32 - 1) := Nat.mul_le_mul (by omega) (by omega)
    _ < 2 ^ 64 := by norm_num
  constructor
  · intro hok
    rw [VerifyDimensions] at hok
    by_cases h0 : xs = 0 ∨ ys = 0
    · rw [if_pos h0] at hok
      exact absurd hok (by simp)
    rw [if_neg h0] at hok
    by_cases h1 : L.dec_max_xsize < xs
    · rw [if_pos h1] at hok
      exact absurd hok (by simp)
    rw [if_neg h1] at hok
    by_cases h2 : L.dec_max_ysize < ys
    · rw [if_pos h2] at hok
      exact absurd hok (by simp)
    rw [if_neg h2] at hok
    by_cases h3 : L.dec_max_pixels < xs * ys % 2 ^ 64
    · rw [if_pos h3] at hok
      exact absurd hok (by simp)
    have hxs : xs ≤ L.dec_max_xsize := by omega
    have hys : ys ≤ L.dec_max_ysize := by omega
    rw [Nat.mod_eq_of_lt (hmul hxs hys)] at h3
    exact ⟨fun h => h0 (Or.inl h), fun h => h0 (Or.inr h), hxs, hys, Nat.not_lt.mp h3⟩
  · rintro ⟨hxs0, hys0, hxs, hys, hp⟩
    rw [VerifyDimensions, if_neg (by omega), if_neg (by omega), if_neg (by omega),
      if_neg (by rw [Nat.mod_eq_of_lt (hmul hxs hys)]; exact Nat.not_lt.mpr hp)]

/-- C3 witness: the general equivalence instantiated at the default limits
and dimensions (5, 7). -/
theorem c3_verifyDimensions_witness :
    VerifyDimensions defaultLimits 5 7 = .ok () :=
  (c3_verifyDimensions.1 defaultLimits 5 7 (by decide) (by decide)).mpr
    ⟨by decide, by decide, by decide, by decide, by decide⟩

/-- C4: under the documented `dc_level ≤ 4` invariant and absence of `size_t`
overflow, `ToFrameDimensions()` starts from the explicit `frame_size`
component when nonzero and otherwise from the metadata's default (or preview)
size, and when `dc_level ≠ 0` both dimensions are divided by `8 ^ dc_level`
rounding up. -/
theorem c4_toFrameDimensions (h : FrameHeader)
    (hdc : h.dc_level ≤ 4)
    (hx : (if h.frame_size.xsize ≠ 0 then h.frame_size.xsize else h.default_xsize)
            + 8 ^ h.dc_level ≤ 2 ^ 64)
    (hy : (if h.frame_size.ysize ≠ 0 then h.frame_size.ysize else h.default_ysize)
            + 8 ^ h.dc_level ≤ 2 ^ 64) :
    h.toFrameDimensionsSize =
      ((if h.dc_level = 0 then
          (if h.frame_size.xsize ≠ 0 then h.frame_size.xsize else h.default_xsize)
        else
          specCeilDiv
            (if h.frame_size.xsize ≠ 0 then h.frame_size.xsize else h.default_xsize)
            (8 ^ h.dc_level)),
       (if h.dc_level = 0 then
          (if h.frame_size.ysize ≠ 0 then h.frame_size.ysize else h.default_ysize)
        else
          specCeilDiv
            (if h.frame_size.ysize ≠ 0 then h.frame_size.ysize else h.default_ysize)
            (8 ^ h.dc_level))) := by
  have h8 : (2 : Nat) ^ (3 * h.dc_level) = 8 ^ h.dc_level := by
    rw [pow_mul]
    norm_num
  simp only [FrameHeader.toFrameDimensionsSize]
  by_cases hdc0 : h.dc_level = 0
  · simp [hdc0]
  · have hdc' : h.dc_level ≠ 0 := hdc0
    rw [if_pos hdc', if_neg hdc0, if_neg hdc0, h8,
      divCeilU64_eq_specCeilDiv _ _ (pow_pos (by norm_num) _) hx,
      divCeilU64_eq_specCeilDiv _ _ (pow_pos (by norm_num) _) hy]

/-- C4 witness: a DC frame with `dc_level = 1`, no explicit size, over a
100×60 image: effective dimensions ⌈100/8⌉ × ⌈60/8⌉ = 13 × 8. -/
theorem c4_toFrameDimensions_witness :
    FrameHeader.toFrameDimensionsSize sampleDcHeader = (13, 8) := by
  have h := c4_toFrameDimensions sampleDcHeader (by decide) (by decide) (by decide)
  rw [h]
  decide

/-- C5: the name-length variant set represents 1071 (= 48 + 2^10 − 1), no
variant represents anything larger, and in the decode direction the length is
followed by exactly that many raw 8-bit characters: reading `n ≤ |s|`
characters from stream `s` yields precisely the first `n` bytes and leaves
precisely the stream after them. -/
theorem c5_nameString_length :
    U32Distr.canRepresent (.bitsOffset 10 48) 1071 = true ∧
    (∀ d ∈ nameLengthVariants, ∀ v, U32Distr.canRepresent d v = true → v ≤ 1071) ∧
    (∀ (n : Nat) (s : List Nat), n ≤ s.length →
        readNameChars n s = some (s.take n, s.drop n)) := by
  refine ⟨by decide, ?_, ?_⟩
  · intro d hd v hv
    simp only [nameLengthVariants, List.mem_cons, List.not_mem_nil, or_false] at hd
    rcases hd with rfl | rfl | rfl | rfl <;>
      simp only [U32Distr.canRepresent, beq_iff_eq, decide_eq_true_eq] at hv <;>
      omega
  · intro n
    induction n with
    | zero =>
      intro s _
      simp [readNameChars]
    | succ k ih =>
      intro s hs
      cases s with
      | nil => simp at hs
      | cons b t =>
        simp only [readNameChars, ih t (by simpa using hs), List.take_succ_cons,
          List.drop_succ_cons]

/-- C5 witness: reading a length-2 name from the byte stream [65, 66, 67]
consumes exactly the first two bytes. -/
theorem c5_nameString_length_witness :
    readNameChars 2 [65, 66, 67] = some ([65, 66], [67]) := by
  have h := c5_nameString_length.2.2 2 [65, 66, 67] (by decide)
  simpa using h

/-- Helper: the frame loop succeeds exactly when every frame's transform
succeeds. -/
theorem transformFramesList_ok_iff {B : Type} (tf : B → Except String B)
    (l : List B) :
    statusOk (transformFramesList tf l).1 = true ↔
      ∀ b ∈ l, statusOk (tf b) = true := by
  induction l with
  | nil => simp [transformFramesList, statusOk]
  | cons b bs ih =>
    cases htf : tf b with
    | error e =>
      simp [transformFramesList, htf, statusOk]
    | ok b' =>
      simp only [transformFramesList, htf, List.mem_cons]
      constructor
      · intro h x hx
        rcases hx with rfl | hx
        · rw [htf]; rfl
        · exact (ih.mp h) x hx
      · intro h
        exact ih.mpr fun x hx => h x (Or.inr hx)

/-- Helper: when every transform succeeds the loop returns success and maps
every frame through its transform. -/
theorem transformFramesList_all_ok {B : Type} (tf : B → Except String B)
    (l : List B) (h : ∀ b ∈ l, statusOk (tf b) = true) :
    transformFramesList tf l = (.ok (), l.map (applyOk tf)) := by
  induction l with
  | nil => rfl
  | cons b bs ih =>
    have hb := h b (List.mem_cons_self b bs)
    cases htf : tf b with
    | error e => rw [htf] at hb; simp [statusOk] at hb
    | ok b' =>
      have hrest := ih fun x hx => h x (List.mem_cons_of_mem b hx)
      simp [transformFramesList, htf, hrest, applyOk]

/-- Helper: on the first failing frame the loop returns that failure, with
the preceding frames transformed and the failing frame and all later frames
untouched. -/
theorem transformFramesList_first_error {B : Type} (tf : B → Except String B)
    (xs : List B) (b : B) (ys : List B) (e : String)
    (hxs : ∀ x ∈ xs, statusOk (tf x) = true) (hb : tf b = .error e) :
    transformFramesList tf (xs ++ b :: ys) =
      (.error e, xs.map (applyOk tf) ++ b :: ys) := by
  induction xs with
  | nil => simp [transformFramesList, hb]
  | cons x t ih =>
    have hx := hxs x (List.mem_cons_self x t)
    cases htf : tf x with
    | error e' => rw [htf] at hx; simp [statusOk] at hx
    | ok x' =>
      have hrest := ih fun z hz => hxs z (List.mem_cons_of_mem x hz)
      simp [transformFramesList, htf, hrest, applyOk]

/-- C6: `CodecInOut::TransformTo` applies the per-bundle transform first to
the preview (only when the metadata declares one) and then to every frame in
sequence order; it succeeds iff the preview (when declared) and every frame
succeed; a preview failure is returned with no frame touched; and the first
frame failure is returned with the earlier frames transformed and the
failing frame and all later frames untouched. -/
theorem c6_transformTo_first_failure {B : Type} (tf : B → Except String B)
    (c : CodecInOut B) :
    (statusOk (c.TransformTo tf).1 = true ↔
      ((c.have_preview = true → statusOk (tf c.preview_frame) = true) ∧
        ∀ b ∈ c.frames, statusOk (tf b) = true)) ∧
    (∀ e, c.have_preview = true → tf c.preview_frame = .error e →
      c.TransformTo tf = (.error e, c)) ∧
    (∀ e xs b ys, c.frames = xs ++ b :: ys →
      (∀ x ∈ xs, statusOk (tf x) = true) → tf b = .error e →
      (c.have_preview = false ∨ statusOk (tf c.preview_frame) = true) →
      (c.TransformTo tf).1 = .error e ∧
        (c.TransformTo tf).2.frames = xs.map (applyOk tf) ++ b :: ys) := by
  refine ⟨?_, ?_, ?_⟩
  · cases hp : c.have_preview with
    | false =>
      rw [CodecInOut.TransformTo,
        if_neg (show ¬c.have_preview = true by rw [hp]; exact Bool.false_ne_true)]
      simp only [Bool.false_eq_true, false_implies, true_and]
      exact transformFramesList_ok_iff tf c.frames
    | true =>
      rw [CodecInOut.TransformTo, if_pos hp]
      cases htf : tf c.preview_frame with
      | error e =>
        constructor
        · intro h
          exact absurd h Bool.false_ne_true
        · rintro ⟨hprev, -⟩
          exact absurd (hprev rfl) Bool.false_ne_true
      | ok p =>
        constructor
        · intro h
          exact ⟨fun _ => rfl, (transformFramesList_ok_iff tf c.frames).mp h⟩
        · rintro ⟨-, h⟩
          exact (transformFramesList_ok_iff tf c.frames).mpr h
  · intro e hp htf
    simp [CodecInOut.TransformTo, hp, htf]
  · intro e xs b ys hfr hxs hb hprev
    have hloop := transformFramesList_first_error tf xs b ys e hxs hb
    rcases hprev with hp | hok
    · rw [CodecInOut.TransformTo, if_neg (by rw [hp]; exact Bool.false_ne_true),
        hfr, hloop]
      exact ⟨rfl, rfl⟩
    · cases hp : c.have_preview with
      | false =>
        rw [CodecInOut.TransformTo, if_neg (by rw [hp]; exact Bool.false_ne_true),
          hfr, hloop]
        exact ⟨rfl, rfl⟩
      | true =>
        cases htfp : tf c.preview_frame with
        | error e' => rw [htfp] at hok; simp [statusOk] at hok
        | ok p =>
          rw [CodecInOut.TransformTo, if_pos (by rw [hp]), htfp, hfr, hloop]
          exact ⟨rfl, rfl⟩

/-- C6 witness: with the preview succeeding and frames [1, 0, 3] where frame
0 fails, the aggregate returns the failure, frame 1 is transformed to 2, and
frames 0 and 3 keep their old values. -/
theorem c6_transformTo_first_failure_witness :
    (sampleCodec.TransformTo sampleTf).1 = .error "fail" ∧
    (sampleCodec.TransformTo sampleTf).2.frames = [2, 0, 3] := by
  have h := (c6_transformTo_first_failure sampleTf sampleCodec).2.2 "fail"
    [1] 0 [3] rfl (by decide) rfl (Or.inr rfl)
  refine ⟨h.1, ?_⟩
  rw [h.2]
  rfl

/-- C7: the bundle's `xsize()`/`ysize()` follow the fixed precedence order —
transcoded payload's declared dimensions when present; else the planar color
image's dimensions when nonzero; else the first extra channel's dimensions
when one exists; else zero — and agree with the spec-worded resolution. -/
theorem c7_size_resolution (b : ImageBundle) :
    (b.xsize, b.ysize) = specResolvedSize b ∧
    (∀ j, b.jpeg_data = some j → b.xsize = j.width ∧ b.ysize = j.height) ∧
    (b.jpeg_data = none → b.color.xsize ≠ 0 → b.xsize = b.color.xsize) ∧
    (b.jpeg_data = none → b.color.ysize ≠ 0 → b.ysize = b.color.ysize) ∧
    (∀ e rest, b.jpeg_data = none → b.color.xsize = 0 →
      b.extra_channels = e :: rest → b.xsize = e.xsize) ∧
    (∀ e rest, b.jpeg_data = none → b.color.ysize = 0 →
      b.extra_channels = e :: rest → b.ysize = e.ysize) ∧
    (b.jpeg_data = none → b.color.xsize = 0 → b.extra_channels = [] →
      b.xsize = 0) ∧
    (b.jpeg_data = none → b.color.ysize = 0 → b.extra_channels = [] →
      b.ysize = 0) := by
  refine ⟨?_, ?_, ?_, ?_, ?_, ?_, ?_, ?_⟩
  · cases hj : b.jpeg_data with
    | some j => simp [ImageBundle.xsize, ImageBundle.ysize, specResolvedSize, hj]
    | none =>
      cases hec : b.extra_channels with
      | nil => simp [ImageBundle.xsize, ImageBundle.ysize, specResolvedSize, hj, hec]
      | cons e rest =>
        simp [ImageBundle.xsize, ImageBundle.ysize, specResolvedSize, hj, hec]
  · intro j hj
    simp [ImageBundle.xsize, ImageBundle.ysize, hj]
  · intro hj hc
    simp [ImageBundle.xsize, hj, hc]
  · intro hj hc
    simp [ImageBundle.ysize, hj, hc]
  · intro e rest hj hc hec
    simp [ImageBundle.xsize, hj, hc, hec]
  · intro e rest hj hc hec
    simp [ImageBundle.ysize, hj, hc, hec]
  · intro hj hc hec
    simp [ImageBundle.xsize, hj, hc, hec]
  · intro hj hc hec
    simp [ImageBundle.ysize, hj, hc, hec]

/-- C7 witness: the extra-channel fallback on a concrete bundle (no payload,
empty color, one 9×4 extra channel). -/
theorem c7_size_resolution_witness :
    ImageBundle.xsize sampleBundle = 9 ∧ ImageBundle.ysize sampleBundle = 4 := by
  have h := c7_size_resolution sampleBundle
  exact ⟨h.2.2.2.2.1 ⟨9, 4⟩ [] rfl rfl rfl, h.2.2.2.2.2.1 ⟨9, 4⟩ [] rfl rfl rfl⟩

/-- C8: under blend mode `kBlend` on a non-alpha channel with associated
(premultiplied) alpha, the composited sample is `(1 − new_alpha)·old + new`;
at old = 0.2, new = 0.8, new_alpha = 0.5 the result is exactly 0.9. -/
theorem c8_blend_associated :
    (∀ old new oldAlpha newAlpha alphaOut : ℚ,
        blendSample .kBlend false true old new oldAlpha newAlpha alphaOut =
          (1 - newAlpha) * old + new) ∧
    blendSample .kBlend false true (2 / 10) (8 / 10) 1 (5 / 10) 1 = 9 / 10 := by
  constructor
  · intro old new oldAlpha newAlpha alphaOut
    rfl
  · norm_num [blendSample]

/-- C10: `Copy()` reproduces the metadata back-reference, color image,
current color encoding, extra channels, transcoded payload, color transform
and chroma subsampling of the source, while the copy's origin, duration,
use_for_next_frame, blend and decoded byte count always take the constructor
defaults — (0,0), 0, false, false, 0 — regardless of the source's values. -/
theorem c10_copy_fields (b : ImageBundle) :
    b.Copy.metadata = b.metadata ∧
    b.Copy.color = b.color ∧
    b.Copy.c_current = b.c_current ∧
    b.Copy.extra_channels = b.extra_channels ∧
    b.Copy.jpeg_data = b.jpeg_data ∧
    b.Copy.color_transform = b.color_transform ∧
    b.Copy.chroma_subsampling = b.chroma_subsampling ∧
    b.Copy.origin = ⟨0, 0⟩ ∧
    b.Copy.duration = 0 ∧
    b.Copy.use_for_next_frame = false ∧
    b.Copy.blend = false ∧
    b.Copy.decoded_bytes = 0 := by
  refine ⟨rfl, rfl, rfl, ?_, ?_, rfl, rfl, rfl, rfl, rfl, rfl, rfl⟩
  · have hmap : ∀ l : List ImageU, l.map ImageBundle.copyImageU = l := by
      intro l
      induction l with
      | nil => rfl
      | cons x t ih => simp [ImageBundle.copyImageU, ih]
    simp [ImageBundle.Copy, hmap]
  · cases hj : b.jpeg_data with
    | some j => simp [ImageBundle.Copy, ImageBundle.mkWithMetadata, hj]
    | none => simp [ImageBundle.Copy, ImageBundle.mkWithMetadata, hj]

end JxlSpec
